import Mathlib

/-!
A shallow embedding of the bingo game-session coordinator in `src/server.ts`
(class `BingoServer`), together with theorems about its behaviour.

Modelling conventions:
* WebSocket handles are modelled as natural-number socket identifiers.
* JavaScript's `Map` (insertion-ordered) is modelled as an association list;
  `Map.get`/in-place mutation of the stored object become `mapGet`/`mapUpdate`,
  and `Map.set` of a fresh key appends at the end.
* JavaScript numbers used for money are modelled as integers (`Int`); the
  payout formula's real arithmetic is modelled exactly over `ℚ` with a final
  `Int.floor`, mirroring `Math.floor`.
* `Math.random()`-based draws are modelled by an oracle stream
  `rand : Nat → Nat`; `Math.floor(Math.random() * 75)` becomes `rand k % 75`.
  The rejection-sampling `do … while` loop is given explicit fuel; exhausting
  the fuel (`none`) models the loop not having terminated yet.
* Timestamps (`Date.now()`) are natural numbers supplied by the environment.
* Outbound traffic (`socket.send`, broadcasts, admin notifications) is
  collected as a list of `OutMsg` values instead of performing I/O.
-/

/-- Session phase, `GameState.status` in the source:
`'waiting' | 'playing' | 'paused' | 'ended'`. -/
inductive Status
  | waiting
  | playing
  | paused
  | ended
deriving DecidableEq, Repr

/-- A registered player record (interface `Player` in the source).
The WebSocket handle is modelled by the numeric `socket` field. -/
structure Player where
  id : String
  name : String
  phone : String
  stake : Int
  boardType : String
  boardId : Nat
  connected : Bool
  socket : Nat
  markedNumbers : List Nat
  lastPing : Nat
deriving DecidableEq, Repr

/-- A winner record (element of `GameState.winners`); `time : Date` is modelled
as a natural-number timestamp. -/
structure Winner where
  playerId : String
  name : String
  pattern : String
  amount : Int
  time : Nat
deriving DecidableEq, Repr

/-- The finance ledger (`GameState.finance`). -/
structure Finance where
  totalIncome : Int
  totalPayout : Int
  currentBalance : Int
deriving DecidableEq, Repr

/-- The mutable session state (interface `GameState` in the source).
`players` is the insertion-ordered `Map<string, Player>` as an association
list keyed by player id. -/
structure GameState where
  status : Status
  calledNumbers : List Nat
  currentNumber : Option Nat
  autoCall : Bool
  autoCallInterval : Option Nat
  players : List (String × Player)
  winners : List Winner
  finance : Finance
deriving DecidableEq, Repr

/-- The whole server (`BingoServer`): game state plus the optional
authenticated admin connection (its socket id; in the source the
`authenticated` flag is always `true` whenever `admin` is non-null). -/
structure ServerState where
  gameState : GameState
  admin : Option Nat
deriving DecidableEq, Repr

/-- Destination of an outbound message. -/
inductive Recipient
  | sock (id : Nat)
deriving DecidableEq, Repr

/-- One outbound send: recipient, the `type` tag of the payload, and the
payload's `message` field where the source includes one (else `""`). -/
structure OutMsg where
  recipient : Recipient
  tag : String
  message : String
deriving DecidableEq, Repr

/-- Environmental inputs a handler may consume: the current time
(`Date.now()`), a randomness oracle, fuel for the rejection-sampling loop,
and fresh identifiers produced by `setInterval` / `Math.random()` board ids. -/
structure Env where
  now : Nat
  rand : Nat → Nat
  fuel : Nat
  freshHandle : Nat
  randBoardId : Nat

/-- `this.gameState.players.get(k)` on the association-list model. -/
def mapGet (m : List (String × Player)) (k : String) : Option Player :=
  (m.find? (fun p => p.1 == k)).map Prod.snd

/-- In-place mutation of the player object stored under an existing key
(the source fetches the record with `get` and assigns to its fields). -/
def mapUpdate (m : List (String × Player)) (k : String) (f : Player → Player) :
    List (String × Player) :=
  m.map (fun p => if p.1 == k then (p.1, f p.2) else p)

/-- `Map.set` with a key not yet present appends in insertion order. -/
def mapInsert (m : List (String × Player)) (k : String) (v : Player) :
    List (String × Player) :=
  m ++ [(k, v)]

/-- `this.sendToSocket(socket, {type: tag, message: msg, …})`. -/
def sendToSocket (sock : Nat) (tag msg : String) : OutMsg :=
  ⟨Recipient.sock sock, tag, msg⟩

/-- `this.broadcastToAllPlayers(data)`: sends to every registry entry whose
`connected` flag is set (socket readiness is a transport concern, not
modelled). -/
def broadcastToAllPlayers (players : List (String × Player)) (tag msg : String) :
    List OutMsg :=
  (players.filter (fun p => p.2.connected)).map
    (fun p => sendToSocket p.2.socket tag msg)

/-- An admin-targeted send (`sendGameStateToAdmin`,
`sendPlayersUpdateToAdmin`, `sendCalledNumbersToAdmin`,
`sendWinnersUpdateToAdmin`, `sendFinanceUpdateToAdmin`): delivered only when
an authenticated admin connection exists, else dropped. -/
def adminSend (admin : Option Nat) (tag : String) : List OutMsg :=
  match admin with
  | some a => [sendToSocket a tag ""]
  | none => []

/-- `handleAdminAuth(socket, password)`. -/
def handleAdminAuth (srv : ServerState) (sock : Nat) (password : String) :
    ServerState × List OutMsg :=
  if password = "asse2123" then
    ({ srv with admin := some sock },
     [sendToSocket sock "auth_success" "Admin authenticated successfully"] ++
       adminSend (some sock) "game_state")
  else
    (srv, [sendToSocket sock "auth_failed" "Invalid password"])

/-- `handlePlayerConnect(socket, playerId, playerName)`: reconnect reuses the
record (new socket, `connected := true`, fresh `lastPing`); otherwise a new
player is inserted. -/
def handlePlayerConnect (srv : ServerState) (sock : Nat)
    (playerId playerName : String) (env : Env) : ServerState × List OutMsg :=
  let g := srv.gameState
  let players' :=
    match mapGet g.players playerId with
    | some _ =>
        mapUpdate g.players playerId
          (fun p => { p with socket := sock, connected := true, lastPing := env.now })
    | none =>
        mapInsert g.players playerId
          { id := playerId
            name := if playerName = "" then "Guest" else playerName
            phone := ""
            stake := 0
            boardType := "75ball"
            boardId := env.randBoardId % 100 + 1
            connected := true
            socket := sock
            markedNumbers := []
            lastPing := env.now }
  ({ srv with gameState := { g with players := players' } },
   [sendToSocket sock "game_state" ""] ++ adminSend srv.admin "players_update")

/-- `handlePlayerRegister(socket, data)`: only an already-connected player id
is registered; an unknown id falls through the `if (player)` guard with no
effect and no reply. -/
def handlePlayerRegister (srv : ServerState) (sock : Nat)
    (playerId name phone : String) (stake : Int) (boardType : String) :
    ServerState × List OutMsg :=
  let g := srv.gameState
  match mapGet g.players playerId with
  | none => (srv, [])
  | some _ =>
      let g' :=
        { g with
          players := mapUpdate g.players playerId
            (fun p => { p with name := name, phone := phone, stake := stake,
                               boardType := boardType })
          finance :=
            { g.finance with
              totalIncome := g.finance.totalIncome + stake
              currentBalance := g.finance.currentBalance + stake } }
      ({ srv with gameState := g' },
       [sendToSocket sock "registration_success" "Registration successful"] ++
         adminSend srv.admin "players_update" ++
         adminSend srv.admin "finance_update" ++
         broadcastToAllPlayers g'.players "player_joined" "")

/-- `handleMarkNumber(socket, playerId, number)`: appends the number to the
player's marked list when the player exists and the number is not already
marked; note the source performs no phase check here. -/
def handleMarkNumber (srv : ServerState) (sock : Nat) (playerId : String)
    (number : Nat) : ServerState × List OutMsg :=
  let g := srv.gameState
  match mapGet g.players playerId with
  | none => (srv, [])
  | some p =>
      if p.markedNumbers.contains number then (srv, [])
      else
        let players' := mapUpdate g.players playerId
          (fun q => { q with markedNumbers := q.markedNumbers ++ [number] })
        ({ srv with gameState := { g with players := players' } },
         [sendToSocket sock "number_marked" ""])

/-- `checkWinPattern(markedNumbers, boardType)`: at least 5 marked numbers
qualify; the label depends only on the board type. -/
def checkWinPattern (markedNumbers : List Nat) (boardType : String) :
    Option String :=
  if markedNumbers.length ≥ 5 then
    if boardType = "75ball" ∨ boardType = "50ball" then some "Row Pattern"
    else if boardType = "90ball" then some "Line Pattern"
    else if boardType = "pattern" then some "Special Pattern"
    else some "Full House"
  else none

/-- `calculateWinAmount(stake)`: `Math.floor(90 * stake * 0.8 * 0.97)`,
with the real arithmetic modelled exactly over `ℚ`. -/
def calculateWinAmount (stake : Int) : Int :=
  Int.floor ((90 * (stake : ℚ) * 0.8) * 0.97)

/-- `handleClaimWin(socket, data)`. -/
def handleClaimWin (srv : ServerState) (sock : Nat)
    (playerId boardType : String) (env : Env) : ServerState × List OutMsg :=
  let g := srv.gameState
  if g.status ≠ Status.playing then
    (srv, [sendToSocket sock "error" "Game is not active"])
  else
    match mapGet g.players playerId with
    | none => (srv, [sendToSocket sock "error" "Player not found"])
    | some player =>
        match checkWinPattern player.markedNumbers boardType with
        | none => (srv, [sendToSocket sock "error" "No winning pattern found"])
        | some winPattern =>
            let winAmount := calculateWinAmount player.stake
            let winner : Winner :=
              { playerId := player.id, name := player.name,
                pattern := winPattern, amount := winAmount, time := env.now }
            let g' :=
              { g with
                winners := g.winners ++ [winner]
                finance :=
                  { g.finance with
                    totalPayout := g.finance.totalPayout + winAmount
                    currentBalance := g.finance.currentBalance - winAmount } }
            ({ srv with gameState := g' },
             broadcastToAllPlayers g'.players "winner_declared" "" ++
               [sendToSocket sock "win_confirmed" "Congratulations! You won!"] ++
               adminSend srv.admin "winners_update" ++
               adminSend srv.admin "finance_update")

/-- `handleStartGame()`: from `waiting` or `ended`, enter `playing`, clearing
the called numbers, the current number and every player's marked numbers. -/
def handleStartGame (srv : ServerState) : ServerState × List OutMsg :=
  let g := srv.gameState
  if g.status = Status.waiting ∨ g.status = Status.ended then
    let g' :=
      { g with
        status := Status.playing
        calledNumbers := []
        currentNumber := none
        players := g.players.map (fun p => (p.1, { p.2 with markedNumbers := [] })) }
    ({ srv with gameState := g' },
     broadcastToAllPlayers g'.players "game_started" "" ++
       adminSend srv.admin "game_state")
  else (srv, [])

/-- `handlePauseGame()`: toggles `playing ↔ paused`; nothing else changes. -/
def handlePauseGame (srv : ServerState) : ServerState × List OutMsg :=
  let g := srv.gameState
  if g.status = Status.playing then
    ({ srv with gameState := { g with status := Status.paused } },
     broadcastToAllPlayers g.players "game_paused" "Game paused by admin" ++
       adminSend srv.admin "game_state")
  else if g.status = Status.paused then
    ({ srv with gameState := { g with status := Status.playing } },
     broadcastToAllPlayers g.players "game_resumed" "Game resumed" ++
       adminSend srv.admin "game_state")
  else (srv, [])

/-- `handleEndGame()`: unconditionally sets the status to `ended`. -/
def handleEndGame (srv : ServerState) : ServerState × List OutMsg :=
  let g := srv.gameState
  ({ srv with gameState := { g with status := Status.ended } },
   broadcastToAllPlayers g.players "game_ended" "" ++
     adminSend srv.admin "game_state")

/-- The `do { number = Math.floor(Math.random() * 75) + 1 } while
(calledNumbers.includes(number))` loop: draw proposals from the oracle until
one is fresh; `none` means the fuel ran out before the loop terminated. -/
def drawFresh (rand : Nat → Nat) (called : List Nat) :
    Nat → Nat → Option Nat
  | 0, _ => none
  | fuel + 1, k =>
      let n := rand k % 75 + 1
      if called.contains n then drawFresh rand called fuel (k + 1) else some n

/-- `callRandomNumber()`: a no-op outside `playing`; otherwise appends a fresh
draw and sets the current number. `none` models the (probability-zero given
free numbers, certain when all 75 are called) case that the sampling loop has
not terminated within the fuel. -/
def callRandomNumber (srv : ServerState) (env : Env) :
    Option (ServerState × List OutMsg) :=
  let g := srv.gameState
  if g.status ≠ Status.playing then some (srv, [])
  else
    match drawFresh env.rand g.calledNumbers env.fuel 0 with
    | none => none
    | some n =>
        let g' := { g with calledNumbers := g.calledNumbers ++ [n],
                           currentNumber := some n }
        some ({ srv with gameState := g' },
          broadcastToAllPlayers g'.players "number_called" "" ++
            adminSend srv.admin "called_numbers")

/-- `toggleAutoCall(enabled)`: enabling with no pending interval schedules one
(`setInterval` yields `env.freshHandle`); disabling with a pending interval
clears it; otherwise only the admin game-state refresh is sent. -/
def toggleAutoCall (srv : ServerState) (enabled : Bool) (env : Env) :
    ServerState × List OutMsg :=
  let g := srv.gameState
  let g' :=
    if enabled ∧ g.autoCallInterval = none then
      { g with autoCall := true, autoCallInterval := some env.freshHandle }
    else if ¬ enabled ∧ g.autoCallInterval ≠ none then
      { g with autoCall := false, autoCallInterval := none }
    else g
  ({ srv with gameState := g' }, adminSend srv.admin "game_state")

/-- `clearCalledNumbers()`. -/
def clearCalledNumbers (srv : ServerState) : ServerState × List OutMsg :=
  let g := srv.gameState
  ({ srv with gameState := { g with calledNumbers := [], currentNumber := none } },
   adminSend srv.admin "called_numbers")

/-- `handlePing(socket, playerId)`: refreshes the player's `lastPing` when the
id is known and always answers with a pong. -/
def handlePing (srv : ServerState) (sock : Nat) (playerId : String) (env : Env) :
    ServerState × List OutMsg :=
  let g := srv.gameState
  let players' := mapUpdate g.players playerId (fun p => { p with lastPing := env.now })
  ({ srv with gameState := { g with players := players' } },
   [sendToSocket sock "pong" ""])

/-- `sendPlayersUpdate(socket)` for the `get_players` message. -/
def sendPlayersUpdate (srv : ServerState) (sock : Nat) :
    ServerState × List OutMsg :=
  (srv, [sendToSocket sock "players_update" ""])

/-- `pingClients()` (the 30-second heartbeat timer): players whose `lastPing`
is more than 120000 ms old are removed from the registry; the remaining
connected ones are pinged; the admin is notified when removals happened. -/
def pingClients (srv : ServerState) (now : Nat) : ServerState × List OutMsg :=
  let g := srv.gameState
  let stale : Player → Bool := fun p => decide (now - p.lastPing > 120000)
  let kept := g.players.filter (fun p => ¬ stale p.2)
  let removedCount := g.players.length - kept.length
  ({ srv with gameState := { g with players := kept } },
   ((g.players.filter (fun p => ¬ stale p.2 ∧ p.2.connected)).map
      (fun p => sendToSocket p.2.socket "ping" "")) ++
     (if removedCount > 0 then adminSend srv.admin "players_update" else []))

/-- `handleDisconnect(socket)`: an admin socket clears the admin; otherwise
the first player using the socket is flagged disconnected with a refreshed
`lastPing` — the record itself stays in the registry. -/
def handleDisconnect (srv : ServerState) (sock : Nat) (now : Nat) :
    ServerState × List OutMsg :=
  if srv.admin = some sock then ({ srv with admin := none }, [])
  else
    let g := srv.gameState
    match g.players.find? (fun p => p.2.socket == sock) with
    | none => (srv, [])
    | some hit =>
        let players' := mapUpdate g.players hit.1
          (fun p => { p with connected := false, lastPing := now })
        ({ srv with gameState := { g with players := players' } },
         adminSend srv.admin "players_update" ++
           broadcastToAllPlayers players' "player_left" "")

/-- Inbound protocol messages (the `data.type` discriminator plus the fields
each handler reads). -/
inductive Msg
  | adminAuth (password : String)
  | playerConnect (playerId playerName : String)
  | playerRegister (playerId name phone : String) (stake : Int) (boardType : String)
  | markNumber (playerId : String) (number : Nat)
  | claimWin (playerId boardType : String)
  | startGame
  | pauseGame
  | endGame
  | callNumber
  | toggleCall (enabled : Bool)
  | clearNumbers
  | ping (playerId : String)
  | getPlayers
  | unknown (tag : String)
deriving DecidableEq, Repr

/-- `handleMessage(socket, data)`: the dispatcher. Note that the source gates
none of the game-control messages on the sender being the admin. `none` is
produced only when `call_number`'s sampling loop has not terminated. -/
def handleMessage (srv : ServerState) (sock : Nat) (msg : Msg) (env : Env) :
    Option (ServerState × List OutMsg) :=
  match msg with
  | Msg.adminAuth password => some (handleAdminAuth srv sock password)
  | Msg.playerConnect playerId playerName =>
      some (handlePlayerConnect srv sock playerId playerName env)
  | Msg.playerRegister playerId name phone stake boardType =>
      some (handlePlayerRegister srv sock playerId name phone stake boardType)
  | Msg.markNumber playerId number => some (handleMarkNumber srv sock playerId number)
  | Msg.claimWin playerId boardType => some (handleClaimWin srv sock playerId boardType env)
  | Msg.startGame => some (handleStartGame srv)
  | Msg.pauseGame => some (handlePauseGame srv)
  | Msg.endGame => some (handleEndGame srv)
  | Msg.callNumber => callRandomNumber srv env
  | Msg.toggleCall enabled => some (toggleAutoCall srv enabled env)
  | Msg.clearNumbers => some (clearCalledNumbers srv)
  | Msg.ping playerId => some (handlePing srv sock playerId env)
  | Msg.getPlayers => some (sendPlayersUpdate srv sock)
  | Msg.unknown _ => some (srv, [sendToSocket sock "error" "Unknown message type"])

/-- The session state built in the `BingoServer` constructor. -/
def initialGameState : GameState :=
  { status := Status.waiting
    calledNumbers := []
    currentNumber := none
    autoCall := false
    autoCallInterval := none
    players := []
    winners := []
    finance := { totalIncome := 0, totalPayout := 0, currentBalance := 0 } }

/-- The server right after the constructor: fresh game state, no admin. -/
def emptyServer : ServerState :=
  { gameState := initialGameState, admin := none }

/-- A fixed environment for concrete evaluations. -/
def env0 : Env :=
  { now := 0, rand := fun _ => 0, fuel := 5, freshHandle := 1, randBoardId := 0 }

/-- A concrete registered player used in concrete instantiations. -/
def samplePlayer : Player :=
  { id := "p1", name := "Ann", phone := "", stake := 50, boardType := "75ball",
    boardId := 1, connected := true, socket := 2, markedNumbers := [1, 2, 3, 4, 5],
    lastPing := 0 }

/-- A concrete paused session holding one called number and one player with
marked numbers. -/
def pausedServer : ServerState :=
  { gameState :=
      { initialGameState with
        status := Status.paused
        calledNumbers := [7]
        currentNumber := some 7
        players := [("p1", samplePlayer)] }
    admin := none }

theorem mapUpdate_keys (m : List (String × Player)) (k : String) (f : Player → Player) :
    (mapUpdate m k f).map Prod.fst = m.map Prod.fst := by
  induction m with
  | nil => rfl
  | cons a t ih =>
      simp only [mapUpdate, List.map_cons]
      by_cases h : (a.1 == k) = true
      · simp only [if_pos h]
        simpa [mapUpdate] using ih
      · simp only [if_neg h]
        simpa [mapUpdate] using ih

theorem mapGet_cons_pos (a : String × Player) (t : List (String × Player))
    (k : String) (h : (a.1 == k) = true) : mapGet (a :: t) k = some a.2 := by
  unfold mapGet
  rw [List.find?_cons_of_pos (p := fun q : String × Player => q.1 == k) t h]
  rfl

theorem mapGet_cons_neg (a : String × Player) (t : List (String × Player))
    (k : String) (h : ¬ (a.1 == k) = true) : mapGet (a :: t) k = mapGet t k := by
  unfold mapGet
  rw [List.find?_cons_of_neg (p := fun q : String × Player => q.1 == k) t h]

theorem mapUpdate_cons (a : String × Player) (t : List (String × Player))
    (k : String) (f : Player → Player) :
    mapUpdate (a :: t) k f =
      (if a.1 == k then (a.1, f a.2) else a) :: mapUpdate t k f := rfl

theorem mapGet_mapUpdate_self (m : List (String × Player)) (k : String)
    (f : Player → Player) (p : Player) (h : mapGet m k = some p) :
    mapGet (mapUpdate m k f) k = some (f p) := by
  induction m with
  | nil => simp [mapGet] at h
  | cons a t ih =>
      by_cases hk : (a.1 == k) = true
      · rw [mapGet_cons_pos a t k hk] at h
        rw [mapUpdate_cons, if_pos hk,
          mapGet_cons_pos (a.1, f a.2) (mapUpdate t k f) k hk]
        simp_all
      · rw [mapGet_cons_neg a t k hk] at h
        rw [mapUpdate_cons, if_neg hk, mapGet_cons_neg _ _ _ hk]
        exact ih h

/-- C9: confirmed. Enabling auto-call and immediately disabling it (before any
timer fires) leaves the called-numbers sequence and current number unchanged,
leaves the `autoCall` flag `false`, and leaves the stored interval handle
`null`. -/
theorem toggle_on_off_cancels (srv : ServerState) (env env' : Env) :
    ((toggleAutoCall (toggleAutoCall srv true env).1 false env').1.gameState.calledNumbers
        = srv.gameState.calledNumbers) ∧
    ((toggleAutoCall (toggleAutoCall srv true env).1 false env').1.gameState.currentNumber
        = srv.gameState.currentNumber) ∧
    ((toggleAutoCall (toggleAutoCall srv true env).1 false env').1.gameState.autoCall
        = false) ∧
    ((toggleAutoCall (toggleAutoCall srv true env).1 false env').1.gameState.autoCallInterval
        = none) := by
  cases h : srv.gameState.autoCallInterval <;>
    simp [toggleAutoCall, h]

/-- C10: confirmed. A `player_register` message whose `playerId` is unknown is
silently ignored: the state is unchanged and no message at all is sent. -/
theorem register_unknown_silently_ignored (srv : ServerState) (sock : Nat)
    (pid name phone : String) (stake : Int) (bt : String)
    (h : mapGet srv.gameState.players pid = none) :
    handlePlayerRegister srv sock pid name phone stake bt = (srv, []) := by
  simp [handlePlayerRegister, h]

/-- Witness for C10 at the freshly constructed server and player id `p1`. -/
theorem register_unknown_silently_ignored_witness :
    mapGet emptyServer.gameState.players "p1" = none ∧
    handlePlayerRegister emptyServer 1 "p1" "Ann" "0911" 50 "75ball" =
      (emptyServer, []) :=
  ⟨rfl, register_unknown_silently_ignored emptyServer 1 "p1" "Ann" "0911" 50 "75ball" rfl⟩

/-- A concrete waiting session holding one player with marked numbers. -/
def waitingServer : ServerState :=
  { gameState := { initialGameState with players := [("p1", samplePlayer)] }
    admin := none }

/-- C1 counterexample: resuming from `paused` via `pause_game` enters
`playing` without clearing the called numbers, the current number, or the
players' marked numbers, contradicting the claim that every transition into
`playing` clears them. -/
theorem resume_does_not_clear :
    pausedServer.gameState.status = Status.paused ∧
    (handlePauseGame pausedServer).1.gameState.status = Status.playing ∧
    (handlePauseGame pausedServer).1.gameState.calledNumbers = [7] ∧
    (handlePauseGame pausedServer).1.gameState.currentNumber = some 7 ∧
    (mapGet (handlePauseGame pausedServer).1.gameState.players "p1").map
        Player.markedNumbers = some [1, 2, 3, 4, 5] := by
  decide

/-- C1 amended: only the `start_game` transitions into `playing` (from
`waiting` or `ended`) clear the called numbers, the current number and every
player's marked numbers; resuming from `paused` via `pause_game` enters
`playing` leaving all three untouched. -/
theorem enter_playing_start_clears_resume_preserves (srv : ServerState) :
    ((srv.gameState.status = Status.waiting ∨ srv.gameState.status = Status.ended) →
      (handleStartGame srv).1.gameState.status = Status.playing ∧
      (handleStartGame srv).1.gameState.calledNumbers = [] ∧
      (handleStartGame srv).1.gameState.currentNumber = none ∧
      ∀ kp ∈ (handleStartGame srv).1.gameState.players, kp.2.markedNumbers = []) ∧
    (srv.gameState.status = Status.paused →
      (handlePauseGame srv).1.gameState.status = Status.playing ∧
      (handlePauseGame srv).1.gameState.calledNumbers = srv.gameState.calledNumbers ∧
      (handlePauseGame srv).1.gameState.currentNumber = srv.gameState.currentNumber ∧
      (handlePauseGame srv).1.gameState.players = srv.gameState.players) := by
  constructor
  · intro h
    simp only [handleStartGame, if_pos h]
    refine ⟨trivial, trivial, trivial, ?_⟩
    intro kp hkp
    simp only [List.mem_map] at hkp
    obtain ⟨q, _, hq⟩ := hkp
    rw [← hq]
  · intro h
    have hnp : ¬ srv.gameState.status = Status.playing := by
      rw [h]
      exact fun hc => Status.noConfusion hc
    simp [handlePauseGame, hnp, h]

/-- Witness for the amended C1 at the concrete paused and waiting servers. -/
theorem enter_playing_start_clears_resume_preserves_witness :
    ((handlePauseGame pausedServer).1.gameState.calledNumbers =
        pausedServer.gameState.calledNumbers) ∧
    (handleStartGame emptyServer).1.gameState.calledNumbers = [] :=
  ⟨((enter_playing_start_clears_resume_preserves pausedServer).2 rfl).2.1,
   ((enter_playing_start_clears_resume_preserves emptyServer).1 (Or.inl rfl)).2.1⟩

/-- C6 counterexample: `mark_number` is processed with no phase check, so a
player's marked numbers grow even while the session is `waiting`. -/
theorem markNumber_ignores_phase :
    waitingServer.gameState.status = Status.waiting ∧
    (mapGet waitingServer.gameState.players "p1").map Player.markedNumbers =
      some [1, 2, 3, 4, 5] ∧
    (mapGet (handleMarkNumber waitingServer 2 "p1" 6).1.gameState.players "p1").map
        Player.markedNumbers = some [1, 2, 3, 4, 5, 6] := by
  decide

/-- C6 amended: `mark_number` appends the number whenever the addressed
player exists and the number is not already marked, in every phase alike
(the handler performs no phase check); when the number is already marked or
the player is unknown nothing changes. -/
theorem markNumber_appends_any_phase (srv : ServerState) (sock : Nat)
    (pid : String) (n : Nat) (p : Player)
    (hp : mapGet srv.gameState.players pid = some p) :
    (n ∉ p.markedNumbers →
      mapGet (handleMarkNumber srv sock pid n).1.gameState.players pid =
        some { p with markedNumbers := p.markedNumbers ++ [n] }) ∧
    (n ∈ p.markedNumbers → handleMarkNumber srv sock pid n = (srv, [])) := by
  constructor
  · intro hn
    have hc : p.markedNumbers.contains n = false := by
      simpa using hn
    have hu := mapGet_mapUpdate_self srv.gameState.players pid
      (fun q => { q with markedNumbers := q.markedNumbers ++ [n] }) p hp
    simpa [handleMarkNumber, hp, hc, hn] using hu
  · intro hn
    simp [handleMarkNumber, hp, hn]

/-- Witness for the amended C6: marking 6 in the waiting phase appends it. -/
theorem markNumber_appends_any_phase_witness :
    mapGet waitingServer.gameState.players "p1" = some samplePlayer ∧
    (6 ∉ samplePlayer.markedNumbers ∧
      mapGet (handleMarkNumber waitingServer 2 "p1" 6).1.gameState.players "p1" =
        some { samplePlayer with markedNumbers := [1, 2, 3, 4, 5, 6] }) :=
  ⟨by decide, by
    have h6 : 6 ∉ samplePlayer.markedNumbers := by decide
    refine ⟨h6, ?_⟩
    have := (markNumber_appends_any_phase waitingServer 2 "p1" 6 samplePlayer
      (by decide)).1 h6
    simpa [samplePlayer] using this⟩

/-- A concrete playing session holding one player. -/
def playingServer : ServerState :=
  { gameState :=
      { initialGameState with
        status := Status.playing
        players := [("p1", samplePlayer)] }
    admin := none }

/-- C4: confirmed. `claim_win` outside the `playing` phase fails with the
state error `Game is not active`; in `playing` with an unknown player id it
fails with `Player not found`; in both cases the whole server state is
unchanged and the single error reply to the claimant is the only send. -/
theorem claimWin_failure_pure (srv : ServerState) (sock : Nat)
    (pid bt : String) (env : Env) :
    (srv.gameState.status ≠ Status.playing →
      handleClaimWin srv sock pid bt env =
        (srv, [sendToSocket sock "error" "Game is not active"])) ∧
    (srv.gameState.status = Status.playing →
      mapGet srv.gameState.players pid = none →
      handleClaimWin srv sock pid bt env =
        (srv, [sendToSocket sock "error" "Player not found"])) := by
  constructor
  · intro h
    simp [handleClaimWin, h]
  · intro h hp
    simp [handleClaimWin, h, hp]

/-- Witness for C4 at the concrete paused and playing servers. -/
theorem claimWin_failure_pure_witness :
    handleClaimWin pausedServer 2 "p1" "75ball" env0 =
      (pausedServer, [sendToSocket 2 "error" "Game is not active"]) ∧
    handleClaimWin playingServer 2 "zz" "75ball" env0 =
      (playingServer, [sendToSocket 2 "error" "Player not found"]) :=
  ⟨(claimWin_failure_pure pausedServer 2 "p1" "75ball" env0).1 (by decide),
   (claimWin_failure_pure playingServer 2 "zz" "75ball" env0).2 rfl (by decide)⟩

/-- C5: confirmed. A successful claim by a player with at least 5 marked
numbers appends a winner whose pattern label depends only on the board type
(`75ball`/`50ball` → Row, `90ball` → Line, `pattern` → Special, else Full
House) and whose amount is `⌊0.97 · 0.8 · 90 · stake⌋`; in particular the
payout at stake 100 is 6984. -/
theorem claimWin_pattern_payout (srv : ServerState) (sock : Nat)
    (pid bt : String) (env : Env) (p : Player)
    (hs : srv.gameState.status = Status.playing)
    (hp : mapGet srv.gameState.players pid = some p)
    (hm : p.markedNumbers.length ≥ 5) :
    (handleClaimWin srv sock pid bt env).1.gameState.winners =
      srv.gameState.winners ++
        [{ playerId := p.id
           name := p.name
           pattern :=
             if bt = "75ball" ∨ bt = "50ball" then "Row Pattern"
             else if bt = "90ball" then "Line Pattern"
             else if bt = "pattern" then "Special Pattern"
             else "Full House"
           amount := Int.floor ((0.97 * 0.8 * 90 * (p.stake : ℚ)))
           time := env.now }] ∧
    calculateWinAmount 100 = 6984 := by
  constructor
  · have hcw : checkWinPattern p.markedNumbers bt =
        some (if bt = "75ball" ∨ bt = "50ball" then "Row Pattern"
              else if bt = "90ball" then "Line Pattern"
              else if bt = "pattern" then "Special Pattern"
              else "Full House") := by
      simp only [checkWinPattern, if_pos hm]
      split_ifs <;> rfl
    have hfloor : calculateWinAmount p.stake =
        Int.floor ((0.97 * 0.8 * 90 * (p.stake : ℚ))) := by
      unfold calculateWinAmount
      congr 1
      ring
    simp [handleClaimWin, hs, hp, hcw, hfloor]
  · unfold calculateWinAmount
    have h1 : ((90 * ((100 : Int) : ℚ) * 0.8) * 0.97) = ((6984 : Int) : ℚ) := by
      norm_num
    rw [h1, Int.floor_intCast]

/-- Witness for C5: player `p1` (5 marked numbers, stake 50) claiming on a
`90ball` board in the concrete playing session. -/
theorem claimWin_pattern_payout_witness :
    (handleClaimWin playingServer 2 "p1" "90ball" env0).1.gameState.winners =
      playingServer.gameState.winners ++
        [{ playerId := samplePlayer.id
           name := samplePlayer.name
           pattern :=
             if "90ball" = "75ball" ∨ "90ball" = "50ball" then "Row Pattern"
             else if "90ball" = "90ball" then "Line Pattern"
             else if "90ball" = "pattern" then "Special Pattern"
             else "Full House"
           amount := Int.floor ((0.97 * 0.8 * 90 * (samplePlayer.stake : ℚ)))
           time := env0.now }] ∧
    calculateWinAmount 100 = 6984 :=
  claimWin_pattern_payout playingServer 2 "p1" "90ball" env0 samplePlayer
    rfl (by decide) (by decide)

theorem drawFresh_spec (rand : Nat → Nat) (called : List Nat) :
    ∀ fuel k n, drawFresh rand called fuel k = some n →
      n ∉ called ∧ 1 ≤ n ∧ n ≤ 75 := by
  intro fuel
  induction fuel with
  | zero =>
      intro k n h
      simp [drawFresh] at h
  | succ m ih =>
      intro k n h
      simp only [drawFresh] at h
      by_cases hc : called.contains (rand k % 75 + 1)
      · rw [if_pos hc] at h
        exact ih _ _ h
      · rw [if_neg hc] at h
        obtain rfl : rand k % 75 + 1 = n := Option.some.inj h
        refine ⟨by simpa using hc, Nat.le_add_left 1 _, ?_⟩
        have := Nat.mod_lt (rand k) (show 0 < 75 by decide)
        omega

theorem callRandomNumber_eq_of_draw (srv : ServerState) (env : Env) (n : Nat)
    (hs : srv.gameState.status = Status.playing)
    (hd : drawFresh env.rand srv.gameState.calledNumbers env.fuel 0 = some n) :
    callRandomNumber srv env =
      some ({ srv with gameState :=
                { srv.gameState with
                  calledNumbers := srv.gameState.calledNumbers ++ [n]
                  currentNumber := some n } },
        broadcastToAllPlayers srv.gameState.players "number_called" "" ++
          adminSend srv.admin "called_numbers") := by
  have hcond : ¬ (srv.gameState.status ≠ Status.playing) := by simp [hs]
  simp only [callRandomNumber, if_neg hcond, hd]

theorem callRandomNumber_none_of_draw_none (srv : ServerState) (env : Env)
    (hs : srv.gameState.status = Status.playing)
    (hd : drawFresh env.rand srv.gameState.calledNumbers env.fuel 0 = none) :
    callRandomNumber srv env = none := by
  have hcond : ¬ (srv.gameState.status ≠ Status.playing) := by simp [hs]
  simp only [callRandomNumber, if_neg hcond, hd]

/-- C3: confirmed. `callNumber` is a no-op (state unchanged, nothing sent)
outside the `playing` phase; in `playing` a terminating call appends exactly
one fresh value of `[1,75]` and makes it the current number, so every call
preserves the no-duplicates/in-range invariant of the called-numbers
sequence. -/
theorem callNumber_spec (srv : ServerState) (env : Env) :
    (srv.gameState.status ≠ Status.playing →
      callRandomNumber srv env = some (srv, [])) ∧
    (∀ srv' out, callRandomNumber srv env = some (srv', out) →
      srv.gameState.status = Status.playing →
      ∃ n, n ∉ srv.gameState.calledNumbers ∧ 1 ≤ n ∧ n ≤ 75 ∧
        srv'.gameState.calledNumbers = srv.gameState.calledNumbers ++ [n] ∧
        srv'.gameState.currentNumber = some n) ∧
    (∀ srv' out, callRandomNumber srv env = some (srv', out) →
      (srv.gameState.calledNumbers.Nodup ∧
        ∀ m ∈ srv.gameState.calledNumbers, 1 ≤ m ∧ m ≤ 75) →
      srv'.gameState.calledNumbers.Nodup ∧
        ∀ m ∈ srv'.gameState.calledNumbers, 1 ≤ m ∧ m ≤ 75) := by
  refine ⟨?_, ?_, ?_⟩
  · intro h
    simp [callRandomNumber, h]
  · intro srv' out h hs
    cases hd : drawFresh env.rand srv.gameState.calledNumbers env.fuel 0 with
    | none =>
        rw [callRandomNumber_none_of_draw_none srv env hs hd] at h
        exact Option.noConfusion h
    | some n =>
        rw [callRandomNumber_eq_of_draw srv env n hs hd] at h
        obtain ⟨hnc, h1, h75⟩ :=
          drawFresh_spec env.rand srv.gameState.calledNumbers env.fuel 0 n hd
        have hp := Option.some.inj h
        have hA := congrArg Prod.fst hp
        subst hA
        exact ⟨n, hnc, h1, h75, rfl, rfl⟩
  · intro srv' out h hinv
    by_cases hs : srv.gameState.status = Status.playing
    · cases hd : drawFresh env.rand srv.gameState.calledNumbers env.fuel 0 with
      | none =>
          rw [callRandomNumber_none_of_draw_none srv env hs hd] at h
          exact Option.noConfusion h
      | some n =>
          rw [callRandomNumber_eq_of_draw srv env n hs hd] at h
          obtain ⟨hnc, h1, h75⟩ :=
            drawFresh_spec env.rand srv.gameState.calledNumbers env.fuel 0 n hd
          have hp := Option.some.inj h
          have hA := congrArg Prod.fst hp
          subst hA
          obtain ⟨hnd, hrange⟩ := hinv
          constructor
          · rw [List.nodup_append]
            refine ⟨hnd, List.nodup_singleton n, ?_⟩
            intro a ha hb
            rw [List.mem_singleton] at hb
            exact hnc (hb ▸ ha)
          · intro m hm
            rcases List.mem_append.mp hm with hm | hm
            · exact hrange m hm
            · rw [List.mem_singleton] at hm
              subst hm
              exact ⟨h1, h75⟩
    · have hno : callRandomNumber srv env = some (srv, []) := by
        simp [callRandomNumber, hs]
      rw [hno] at h
      have hp := Option.some.inj h
      have hA := congrArg Prod.fst hp
      subst hA
      exact hinv

/-- Witness for C3: a call in the concrete playing session (oracle always
proposing 0, i.e. ball 1) and a call in the concrete paused session. -/
theorem callNumber_spec_witness :
    callRandomNumber pausedServer env0 = some (pausedServer, []) ∧
    (∃ n, n ∉ playingServer.gameState.calledNumbers ∧ 1 ≤ n ∧ n ≤ 75 ∧
      (callRandomNumber playingServer env0).map
          (fun r => r.1.gameState.calledNumbers) =
        some (playingServer.gameState.calledNumbers ++ [n])) := by
  constructor
  · exact (callNumber_spec pausedServer env0).1 (by decide)
  · cases hc : callRandomNumber playingServer env0 with
    | none =>
        have heq := callRandomNumber_eq_of_draw playingServer env0 1 rfl rfl
        rw [hc] at heq
        exact Option.noConfusion heq
    | some r =>
        obtain ⟨n, hnc, h1, h75, hcall, -⟩ :=
          (callNumber_spec playingServer env0).2.1 r.1 r.2 (by simpa using hc) rfl
        exact ⟨n, hnc, h1, h75, by simp [hc, hcall]⟩

theorem adminAuth_status (srv : ServerState) (sock : Nat) (pw : String) :
    (handleAdminAuth srv sock pw).1.gameState.status = srv.gameState.status := by
  unfold handleAdminAuth
  split <;> rfl

theorem playerConnect_status (srv : ServerState) (sock : Nat)
    (pid pname : String) (env : Env) :
    (handlePlayerConnect srv sock pid pname env).1.gameState.status =
      srv.gameState.status := rfl

theorem playerRegister_status (srv : ServerState) (sock : Nat)
    (pid name phone : String) (stake : Int) (bt : String) :
    (handlePlayerRegister srv sock pid name phone stake bt).1.gameState.status =
      srv.gameState.status := by
  unfold handlePlayerRegister
  dsimp only
  split <;> rfl

theorem markNumber_status (srv : ServerState) (sock : Nat) (pid : String)
    (n : Nat) :
    (handleMarkNumber srv sock pid n).1.gameState.status =
      srv.gameState.status := by
  unfold handleMarkNumber
  dsimp only
  split
  · rfl
  · split <;> rfl

theorem claimWin_status (srv : ServerState) (sock : Nat) (pid bt : String)
    (env : Env) :
    (handleClaimWin srv sock pid bt env).1.gameState.status =
      srv.gameState.status := by
  unfold handleClaimWin
  dsimp only
  split
  · rfl
  · split
    · rfl
    · split <;> rfl

theorem toggleAutoCall_status (srv : ServerState) (enabled : Bool) (env : Env) :
    (toggleAutoCall srv enabled env).1.gameState.status =
      srv.gameState.status := by
  unfold toggleAutoCall
  dsimp only
  split
  · rfl
  · split <;> rfl

theorem callRandomNumber_status (srv : ServerState) (env : Env)
    (srv' : ServerState) (out : List OutMsg)
    (h : callRandomNumber srv env = some (srv', out)) :
    srv'.gameState.status = srv.gameState.status := by
  by_cases hs : srv.gameState.status = Status.playing
  · cases hd : drawFresh env.rand srv.gameState.calledNumbers env.fuel 0 with
    | none =>
        rw [callRandomNumber_none_of_draw_none srv env hs hd] at h
        exact Option.noConfusion h
    | some n =>
        rw [callRandomNumber_eq_of_draw srv env n hs hd] at h
        have hA := congrArg Prod.fst (Option.some.inj h)
        subst hA
        rfl
  · have hno : callRandomNumber srv env = some (srv, []) := by
      simp [callRandomNumber, hs]
    rw [hno] at h
    have hA := congrArg Prod.fst (Option.some.inj h)
    subst hA
    rfl

/-- C7 counterexample: the dispatcher performs no admin check and
`handleEndGame` runs from any phase, so with no admin authenticated at all an
`end_game` message from socket 5 moves the phase from `waiting` to `ended` —
a sender that is not the admin changes the phase, along an edge
(`waiting → ended`) outside the claimed transition list. -/
theorem endGame_nonadmin_changes_phase :
    emptyServer.admin = none ∧
    emptyServer.gameState.status = Status.waiting ∧
    (handleMessage emptyServer 5 Msg.endGame env0).map
        (fun r => r.1.gameState.status) = some Status.ended := by
  refine ⟨rfl, rfl, rfl⟩

/-- C7 amended: the phase changes only when a `start_game`, `pause_game` or
`end_game` message is processed — from any sender, admin or not — and only
along `waiting/ended → playing` (start), `playing ↔ paused` (pause), and
any-phase `→ ended` (end). -/
theorem phase_transitions_characterized (srv : ServerState) (sock : Nat)
    (msg : Msg) (env : Env) (srv' : ServerState) (out : List OutMsg)
    (h : handleMessage srv sock msg env = some (srv', out)) :
    srv'.gameState.status = srv.gameState.status ∨
    (msg = Msg.startGame ∧
      (srv.gameState.status = Status.waiting ∨
        srv.gameState.status = Status.ended) ∧
      srv'.gameState.status = Status.playing) ∨
    (msg = Msg.pauseGame ∧
      ((srv.gameState.status = Status.playing ∧
          srv'.gameState.status = Status.paused) ∨
        (srv.gameState.status = Status.paused ∧
          srv'.gameState.status = Status.playing))) ∨
    (msg = Msg.endGame ∧ srv'.gameState.status = Status.ended) := by
  cases msg with
  | adminAuth pw =>
      simp only [handleMessage] at h
      have hA := congrArg Prod.fst (Option.some.inj h)
      subst hA
      exact Or.inl (adminAuth_status srv sock pw)
  | playerConnect pid pname =>
      simp only [handleMessage] at h
      have hA := congrArg Prod.fst (Option.some.inj h)
      subst hA
      exact Or.inl (playerConnect_status srv sock pid pname env)
  | playerRegister pid name phone stake bt =>
      simp only [handleMessage] at h
      have hA := congrArg Prod.fst (Option.some.inj h)
      subst hA
      exact Or.inl (playerRegister_status srv sock pid name phone stake bt)
  | markNumber pid n =>
      simp only [handleMessage] at h
      have hA := congrArg Prod.fst (Option.some.inj h)
      subst hA
      exact Or.inl (markNumber_status srv sock pid n)
  | claimWin pid bt =>
      simp only [handleMessage] at h
      have hA := congrArg Prod.fst (Option.some.inj h)
      subst hA
      exact Or.inl (claimWin_status srv sock pid bt env)
  | startGame =>
      simp only [handleMessage] at h
      have hA := congrArg Prod.fst (Option.some.inj h)
      subst hA
      by_cases hws : srv.gameState.status = Status.waiting ∨
          srv.gameState.status = Status.ended
      · refine Or.inr (Or.inl ⟨rfl, hws, ?_⟩)
        simp [handleStartGame, hws]
      · refine Or.inl ?_
        simp [handleStartGame, hws]
  | pauseGame =>
      simp only [handleMessage] at h
      have hA := congrArg Prod.fst (Option.some.inj h)
      subst hA
      by_cases h1 : srv.gameState.status = Status.playing
      · exact Or.inr (Or.inr (Or.inl ⟨rfl,
          Or.inl ⟨h1, by simp [handlePauseGame, h1]⟩⟩))
      · by_cases h2 : srv.gameState.status = Status.paused
        · exact Or.inr (Or.inr (Or.inl ⟨rfl,
            Or.inr ⟨h2, by simp [handlePauseGame, h1, h2]⟩⟩))
        · refine Or.inl ?_
          simp [handlePauseGame, h1, h2]
  | endGame =>
      simp only [handleMessage] at h
      have hA := congrArg Prod.fst (Option.some.inj h)
      subst hA
      exact Or.inr (Or.inr (Or.inr ⟨rfl, rfl⟩))
  | callNumber =>
      simp only [handleMessage] at h
      exact Or.inl (callRandomNumber_status srv env srv' out h)
  | toggleCall enabled =>
      simp only [handleMessage] at h
      have hA := congrArg Prod.fst (Option.some.inj h)
      subst hA
      exact Or.inl (toggleAutoCall_status srv enabled env)
  | clearNumbers =>
      simp only [handleMessage] at h
      have hA := congrArg Prod.fst (Option.some.inj h)
      subst hA
      exact Or.inl rfl
  | ping pid =>
      simp only [handleMessage] at h
      have hA := congrArg Prod.fst (Option.some.inj h)
      subst hA
      exact Or.inl rfl
  | getPlayers =>
      simp only [handleMessage] at h
      have hA := congrArg Prod.fst (Option.some.inj h)
      subst hA
      exact Or.inl rfl
  | unknown t =>
      simp only [handleMessage] at h
      have hA := congrArg Prod.fst (Option.some.inj h)
      subst hA
      exact Or.inl rfl

/-- Witness for the amended C7: the `end_game` message at the fresh server. -/
theorem phase_transitions_characterized_witness :
    (handleEndGame emptyServer).1.gameState.status =
      emptyServer.gameState.status ∨
    (Msg.endGame = Msg.startGame ∧
      (emptyServer.gameState.status = Status.waiting ∨
        emptyServer.gameState.status = Status.ended) ∧
      (handleEndGame emptyServer).1.gameState.status = Status.playing) ∨
    (Msg.endGame = Msg.pauseGame ∧
      ((emptyServer.gameState.status = Status.playing ∧
          (handleEndGame emptyServer).1.gameState.status = Status.paused) ∨
        (emptyServer.gameState.status = Status.paused ∧
          (handleEndGame emptyServer).1.gameState.status = Status.playing))) ∨
    (Msg.endGame = Msg.endGame ∧
      (handleEndGame emptyServer).1.gameState.status = Status.ended) :=
  phase_transitions_characterized emptyServer 5 Msg.endGame env0
    (handleEndGame emptyServer).1 (handleEndGame emptyServer).2 rfl

theorem mapInsert_keys (m : List (String × Player)) (k : String) (v : Player) :
    (mapInsert m k v).map Prod.fst = m.map Prod.fst ++ [k] := by
  simp [mapInsert]

theorem map_keys_of_fst_preserved (m : List (String × Player))
    (f : Player → Player) :
    (m.map (fun p => (p.1, f p.2))).map Prod.fst = m.map Prod.fst := by
  induction m with
  | nil => rfl
  | cons a t ih => simp [ih]

theorem adminAuth_players (srv : ServerState) (sock : Nat) (pw : String) :
    (handleAdminAuth srv sock pw).1.gameState.players =
      srv.gameState.players := by
  unfold handleAdminAuth
  split <;> rfl

theorem playerConnect_keys_mono (srv : ServerState) (sock : Nat)
    (pid pname : String) (env : Env) :
    ∀ k, k ∈ srv.gameState.players.map Prod.fst →
      k ∈ (handlePlayerConnect srv sock pid pname env).1.gameState.players.map
        Prod.fst := by
  intro k hk
  unfold handlePlayerConnect
  dsimp only
  cases hm : mapGet srv.gameState.players pid with
  | some p =>
      rw [mapUpdate_keys]
      exact hk
  | none =>
      rw [mapInsert_keys]
      exact List.mem_append_left _ hk

theorem playerRegister_keys (srv : ServerState) (sock : Nat)
    (pid name phone : String) (stake : Int) (bt : String) :
    (handlePlayerRegister srv sock pid name phone stake bt).1.gameState.players.map
        Prod.fst = srv.gameState.players.map Prod.fst := by
  unfold handlePlayerRegister
  dsimp only
  cases hm : mapGet srv.gameState.players pid with
  | none => rfl
  | some p =>
      dsimp only
      exact mapUpdate_keys _ _ _

theorem markNumber_keys (srv : ServerState) (sock : Nat) (pid : String)
    (n : Nat) :
    (handleMarkNumber srv sock pid n).1.gameState.players.map Prod.fst =
      srv.gameState.players.map Prod.fst := by
  unfold handleMarkNumber
  dsimp only
  cases hm : mapGet srv.gameState.players pid with
  | none => rfl
  | some p =>
      dsimp only
      split
      · rfl
      · dsimp only
        exact mapUpdate_keys _ _ _

theorem claimWin_players (srv : ServerState) (sock : Nat) (pid bt : String)
    (env : Env) :
    (handleClaimWin srv sock pid bt env).1.gameState.players =
      srv.gameState.players := by
  unfold handleClaimWin
  dsimp only
  split
  · rfl
  · split
    · rfl
    · split <;> rfl

theorem startGame_keys (srv : ServerState) :
    (handleStartGame srv).1.gameState.players.map Prod.fst =
      srv.gameState.players.map Prod.fst := by
  unfold handleStartGame
  dsimp only
  split
  · dsimp only
    exact map_keys_of_fst_preserved srv.gameState.players
      (fun q => { q with markedNumbers := [] })
  · rfl

theorem pauseGame_players (srv : ServerState) :
    (handlePauseGame srv).1.gameState.players = srv.gameState.players := by
  unfold handlePauseGame
  dsimp only
  split
  · rfl
  · split <;> rfl

theorem toggleAutoCall_players (srv : ServerState) (enabled : Bool) (env : Env) :
    (toggleAutoCall srv enabled env).1.gameState.players =
      srv.gameState.players := by
  unfold toggleAutoCall
  dsimp only
  split
  · rfl
  · split <;> rfl

theorem callRandomNumber_players (srv : ServerState) (env : Env)
    (srv' : ServerState) (out : List OutMsg)
    (h : callRandomNumber srv env = some (srv', out)) :
    srv'.gameState.players = srv.gameState.players := by
  by_cases hs : srv.gameState.status = Status.playing
  · cases hd : drawFresh env.rand srv.gameState.calledNumbers env.fuel 0 with
    | none =>
        rw [callRandomNumber_none_of_draw_none srv env hs hd] at h
        exact Option.noConfusion h
    | some n =>
        rw [callRandomNumber_eq_of_draw srv env n hs hd] at h
        have hA := congrArg Prod.fst (Option.some.inj h)
        subst hA
        rfl
  · have hno : callRandomNumber srv env = some (srv, []) := by
      simp [callRandomNumber, hs]
    rw [hno] at h
    have hA := congrArg Prod.fst (Option.some.inj h)
    subst hA
    rfl

theorem ping_keys (srv : ServerState) (sock : Nat) (pid : String) (env : Env) :
    (handlePing srv sock pid env).1.gameState.players.map Prod.fst =
      srv.gameState.players.map Prod.fst := by
  unfold handlePing
  dsimp only
  exact mapUpdate_keys _ _ _

/-- C8: confirmed. (1) A transport disconnect never removes a registry entry:
the key list is unchanged, and (2) the affected player is merely flagged
disconnected with a refreshed `lastPing`. (3) The heartbeat sweep keeps a
player exactly when its `lastPing` age is within 120000 ms, so removal
happens only when a sweep observes an older `lastPing`. (4) No dispatched
protocol message ever removes a registry key. -/
theorem removal_only_by_sweep :
    (∀ srv sock now,
      (handleDisconnect srv sock now).1.gameState.players.map Prod.fst =
        srv.gameState.players.map Prod.fst) ∧
    (∀ srv sock now k p,
      ¬ srv.admin = some sock →
      srv.gameState.players.find? (fun q => q.2.socket == sock) = some (k, p) →
      mapGet srv.gameState.players k = some p →
      mapGet (handleDisconnect srv sock now).1.gameState.players k =
        some { p with connected := false, lastPing := now }) ∧
    (∀ srv now k q,
      (k, q) ∈ (pingClients srv now).1.gameState.players ↔
        ((k, q) ∈ srv.gameState.players ∧ now - q.lastPing ≤ 120000)) ∧
    (∀ srv sock msg env srv' out,
      handleMessage srv sock msg env = some (srv', out) →
      ∀ k, k ∈ srv.gameState.players.map Prod.fst →
        k ∈ srv'.gameState.players.map Prod.fst) := by
  refine ⟨?_, ?_, ?_, ?_⟩
  · intro srv sock now
    unfold handleDisconnect
    split
    · rfl
    · dsimp only
      cases hf : srv.gameState.players.find? (fun q => q.2.socket == sock) with
      | none => rfl
      | some hit =>
          dsimp only
          exact mapUpdate_keys _ _ _
  · intro srv sock now k p hadmin hf hg
    unfold handleDisconnect
    rw [if_neg hadmin]
    dsimp only
    rw [hf]
    dsimp only
    exact mapGet_mapUpdate_self _ _ _ _ hg
  · intro srv now k q
    simp only [pingClients, List.mem_filter]
    constructor
    · rintro ⟨h1, h2⟩
      refine ⟨h1, ?_⟩
      simp only [decide_eq_true_eq, Bool.not_eq_true', decide_eq_false_iff_not,
        gt_iff_lt, not_lt] at h2
      omega
    · rintro ⟨h1, h2⟩
      refine ⟨h1, ?_⟩
      simp only [decide_eq_true_eq, Bool.not_eq_true', decide_eq_false_iff_not,
        gt_iff_lt, not_lt]
      omega
  · intro srv sock msg env srv' out h k hk
    cases msg with
    | adminAuth pw =>
        have hA := congrArg Prod.fst (Option.some.inj h)
        subst hA
        rw [adminAuth_players]
        exact hk
    | playerConnect pid pname =>
        have hA := congrArg Prod.fst (Option.some.inj h)
        subst hA
        exact playerConnect_keys_mono srv sock pid pname env k hk
    | playerRegister pid name phone stake bt =>
        have hA := congrArg Prod.fst (Option.some.inj h)
        subst hA
        rw [playerRegister_keys]
        exact hk
    | markNumber pid n =>
        have hA := congrArg Prod.fst (Option.some.inj h)
        subst hA
        rw [markNumber_keys]
        exact hk
    | claimWin pid bt =>
        have hA := congrArg Prod.fst (Option.some.inj h)
        subst hA
        rw [claimWin_players]
        exact hk
    | startGame =>
        have hA := congrArg Prod.fst (Option.some.inj h)
        subst hA
        rw [startGame_keys]
        exact hk
    | pauseGame =>
        have hA := congrArg Prod.fst (Option.some.inj h)
        subst hA
        rw [pauseGame_players]
        exact hk
    | endGame =>
        have hA := congrArg Prod.fst (Option.some.inj h)
        subst hA
        exact hk
    | callNumber =>
        simp only [handleMessage] at h
        rw [callRandomNumber_players srv env srv' out h]
        exact hk
    | toggleCall enabled =>
        have hA := congrArg Prod.fst (Option.some.inj h)
        subst hA
        rw [toggleAutoCall_players]
        exact hk
    | clearNumbers =>
        have hA := congrArg Prod.fst (Option.some.inj h)
        subst hA
        exact hk
    | ping pid =>
        have hA := congrArg Prod.fst (Option.some.inj h)
        subst hA
        rw [ping_keys]
        exact hk
    | getPlayers =>
        have hA := congrArg Prod.fst (Option.some.inj h)
        subst hA
        exact hk
    | unknown t =>
        have hA := congrArg Prod.fst (Option.some.inj h)
        subst hA
        exact hk

/-- Witness for C8: disconnecting player `p1`'s socket in the waiting session
flags it disconnected, and a sweep 50 ms later keeps it. -/
theorem removal_only_by_sweep_witness :
    mapGet (handleDisconnect waitingServer 2 5).1.gameState.players "p1" =
      some { samplePlayer with connected := false, lastPing := 5 } ∧
    ("p1", samplePlayer) ∈ (pingClients waitingServer 50).1.gameState.players :=
  ⟨removal_only_by_sweep.2.1 waitingServer 2 5 "p1" samplePlayer
      (by decide) (by decide) (by decide),
   (removal_only_by_sweep.2.2.1 waitingServer 50 "p1" samplePlayer).mpr
      ⟨by decide, by decide⟩⟩

/-- The ledger invariant of §3 of the spec:
`currentBalance == totalIncome − totalPayout`. -/
def financeInv (g : GameState) : Prop :=
  g.finance.currentBalance = g.finance.totalIncome - g.finance.totalPayout

theorem adminAuth_gameState (srv : ServerState) (sock : Nat) (pw : String) :
    (handleAdminAuth srv sock pw).1.gameState = srv.gameState := by
  unfold handleAdminAuth
  split <;> rfl

theorem playerRegister_financeInv (srv : ServerState) (sock : Nat)
    (pid name phone : String) (stake : Int) (bt : String)
    (hinv : financeInv srv.gameState) :
    financeInv
      (handlePlayerRegister srv sock pid name phone stake bt).1.gameState := by
  unfold handlePlayerRegister
  dsimp only
  cases hm : mapGet srv.gameState.players pid with
  | none => exact hinv
  | some p =>
      unfold financeInv at hinv ⊢
      dsimp only
      omega

theorem markNumber_finance (srv : ServerState) (sock : Nat) (pid : String)
    (n : Nat) :
    (handleMarkNumber srv sock pid n).1.gameState.finance =
      srv.gameState.finance := by
  unfold handleMarkNumber
  dsimp only
  cases hm : mapGet srv.gameState.players pid with
  | none => rfl
  | some p =>
      dsimp only
      split <;> rfl

theorem claimWin_financeInv (srv : ServerState) (sock : Nat) (pid bt : String)
    (env : Env) (hinv : financeInv srv.gameState) :
    financeInv (handleClaimWin srv sock pid bt env).1.gameState := by
  unfold handleClaimWin
  dsimp only
  split
  · exact hinv
  · cases hm : mapGet srv.gameState.players pid with
    | none => exact hinv
    | some p =>
        dsimp only
        cases hw : checkWinPattern p.markedNumbers bt with
        | none => exact hinv
        | some pat =>
            unfold financeInv at hinv ⊢
            dsimp only
            omega

theorem startGame_finance (srv : ServerState) :
    (handleStartGame srv).1.gameState.finance = srv.gameState.finance := by
  unfold handleStartGame
  dsimp only
  split <;> rfl

theorem pauseGame_finance (srv : ServerState) :
    (handlePauseGame srv).1.gameState.finance = srv.gameState.finance := by
  unfold handlePauseGame
  dsimp only
  split
  · rfl
  · split <;> rfl

theorem toggleAutoCall_finance (srv : ServerState) (enabled : Bool)
    (env : Env) :
    (toggleAutoCall srv enabled env).1.gameState.finance =
      srv.gameState.finance := by
  unfold toggleAutoCall
  dsimp only
  split
  · rfl
  · split <;> rfl

theorem callRandomNumber_finance (srv : ServerState) (env : Env)
    (srv' : ServerState) (out : List OutMsg)
    (h : callRandomNumber srv env = some (srv', out)) :
    srv'.gameState.finance = srv.gameState.finance := by
  by_cases hs : srv.gameState.status = Status.playing
  · cases hd : drawFresh env.rand srv.gameState.calledNumbers env.fuel 0 with
    | none =>
        rw [callRandomNumber_none_of_draw_none srv env hs hd] at h
        exact Option.noConfusion h
    | some n =>
        rw [callRandomNumber_eq_of_draw srv env n hs hd] at h
        have hA := congrArg Prod.fst (Option.some.inj h)
        subst hA
        rfl
  · have hno : callRandomNumber srv env = some (srv, []) := by
      simp [callRandomNumber, hs]
    rw [hno] at h
    have hA := congrArg Prod.fst (Option.some.inj h)
    subst hA
    rfl

theorem disconnect_finance (srv : ServerState) (sock : Nat) (now : Nat) :
    (handleDisconnect srv sock now).1.gameState.finance =
      srv.gameState.finance := by
  unfold handleDisconnect
  split
  · rfl
  · dsimp only
    cases hf : srv.gameState.players.find? (fun q => q.2.socket == sock) with
    | none => rfl
    | some hit => rfl

/-- C2: confirmed. The ledger invariant
`currentBalance = totalIncome − totalPayout` holds in the initial state and
is preserved by every dispatched message (including the registration income
and the claim-win payout), by the heartbeat sweep, and by disconnects. -/
theorem finance_invariant_preserved :
    financeInv initialGameState ∧
    (∀ srv sock msg env srv' out, financeInv srv.gameState →
      handleMessage srv sock msg env = some (srv', out) →
      financeInv srv'.gameState) ∧
    (∀ srv now, financeInv srv.gameState →
      financeInv (pingClients srv now).1.gameState) ∧
    (∀ srv sock now, financeInv srv.gameState →
      financeInv (handleDisconnect srv sock now).1.gameState) := by
  refine ⟨by simp [financeInv, initialGameState], ?_, ?_, ?_⟩
  · intro srv sock msg env srv' out hinv h
    cases msg with
    | adminAuth pw =>
        have hA := congrArg Prod.fst (Option.some.inj h)
        subst hA
        unfold financeInv at hinv ⊢
        rw [adminAuth_gameState]
        exact hinv
    | playerConnect pid pname =>
        have hA := congrArg Prod.fst (Option.some.inj h)
        subst hA
        exact hinv
    | playerRegister pid name phone stake bt =>
        have hA := congrArg Prod.fst (Option.some.inj h)
        subst hA
        exact playerRegister_financeInv srv sock pid name phone stake bt hinv
    | markNumber pid n =>
        have hA := congrArg Prod.fst (Option.some.inj h)
        subst hA
        unfold financeInv at hinv ⊢
        rw [markNumber_finance]
        exact hinv
    | claimWin pid bt =>
        have hA := congrArg Prod.fst (Option.some.inj h)
        subst hA
        exact claimWin_financeInv srv sock pid bt env hinv
    | startGame =>
        have hA := congrArg Prod.fst (Option.some.inj h)
        subst hA
        unfold financeInv at hinv ⊢
        rw [startGame_finance]
        exact hinv
    | pauseGame =>
        have hA := congrArg Prod.fst (Option.some.inj h)
        subst hA
        unfold financeInv at hinv ⊢
        rw [pauseGame_finance]
        exact hinv
    | endGame =>
        have hA := congrArg Prod.fst (Option.some.inj h)
        subst hA
        exact hinv
    | callNumber =>
        simp only [handleMessage] at h
        unfold financeInv at hinv ⊢
        rw [callRandomNumber_finance srv env srv' out h]
        exact hinv
    | toggleCall enabled =>
        have hA := congrArg Prod.fst (Option.some.inj h)
        subst hA
        unfold financeInv at hinv ⊢
        rw [toggleAutoCall_finance]
        exact hinv
    | clearNumbers =>
        have hA := congrArg Prod.fst (Option.some.inj h)
        subst hA
        exact hinv
    | ping pid =>
        have hA := congrArg Prod.fst (Option.some.inj h)
        subst hA
        exact hinv
    | getPlayers =>
        have hA := congrArg Prod.fst (Option.some.inj h)
        subst hA
        exact hinv
    | unknown t =>
        have hA := congrArg Prod.fst (Option.some.inj h)
        subst hA
        exact hinv
  · intro srv now hinv
    exact hinv
  · intro srv sock now hinv
    unfold financeInv at hinv ⊢
    rw [disconnect_finance]
    exact hinv

/-- Witness for C2: registering player `p1` with stake 50 in the waiting
session keeps the ledger invariant. -/
theorem finance_invariant_preserved_witness :
    financeInv
      (handlePlayerRegister waitingServer 2 "p1" "Ann" "0911" 50 "75ball").1.gameState :=
  finance_invariant_preserved.2.1 waitingServer 2
    (Msg.playerRegister "p1" "Ann" "0911" 50 "75ball") env0
    (handlePlayerRegister waitingServer 2 "p1" "Ann" "0911" 50 "75ball").1
    (handlePlayerRegister waitingServer 2 "p1" "Ann" "0911" 50 "75ball").2
    (by simp [financeInv, waitingServer, initialGameState]) rfl
